import Mathlib

/-!
Shallow embedding of the credential and token subsystem of the
task-manager services (Go + Gin + golang-jwt/v5 + x/crypto/bcrypt).

The embedding covers:
  * the golang-jwt/v5 parse/verify pipeline as used by the two
    `jwtService.ValidateToken` implementations
    (`task_manager_clean/infrastructure/jwt_service.go` and
    `task_manager_test/internal/service/jwt_service.go`) and
    `jwtService.GenerateToken`;
  * the Gin middlewares `AuthMiddleware` and `AdminOnly`
    (`task_manager_clean/infrastructure/auth_middleware.go`);
  * the bcrypt password hasher
    (`task_manager_clean/infrastructure/password_service.go` over
    `golang.org/x/crypto/bcrypt`);
  * the startup environment checks of `task_manager_clean/delivery/main.go`
    and `task_manager_auth/main.go`, together with the lazily-called
    `JwtKey` of `task_manager_auth/middleware/auth_middleware.go`;
  * `userUsecase.Register`
    (`task_manager_clean/usecases/task_usecases.go`).

Go strings are byte sequences; where the bytes matter (secrets,
passwords) they are modelled as `List Nat`.  Tokens are modelled
post-parse: the three-part base64url encoding is injective, so a token
string is either the well-formed encoding of a (header, claims,
signature) triple or malformed.  HMAC is modelled as an idealized MAC:
a signature value records the algorithm, key and message it was
computed over, and verification succeeds exactly on an identical
recomputation (constructor injectivity models collision-freeness).
-/

deriving instance DecidableEq for Except

namespace jwtv5

/-- JWT signing algorithms registered in golang-jwt/v5 that can appear in a
token header, plus `unknownAlg` for an unregistered `alg` value
(`GetSigningMethod` returns nil for those). -/
inductive Alg where
  | HS256
  | HS384
  | HS512
  | RS256
  | ES256
  | noneAlg
  | unknownAlg (s : String)
deriving DecidableEq

/-- `*jwt.SigningMethodHMAC` family membership: the type test performed by
`t.Method.(*jwt.SigningMethodHMAC)` in the keyfunc of the
task_manager_test ValidateToken. -/
def Alg.isHMAC : Alg → Bool
  | .HS256 => true
  | .HS384 => true
  | .HS512 => true
  | _ => false

/-- A value stored under a key of a `jwt.MapClaims` map (a decoded JSON
value; only the shapes the services can meet are needed). -/
inductive ClaimVal where
  | str (s : String)
  | num (n : Int)
  | boolVal (b : Bool)
deriving DecidableEq

/-- The claim set of the services' tokens: `jwt.MapClaims` restricted to the
keys this repository reads or writes ("username", "role", "exp").
`exp` is a numeric seconds-since-epoch instant when present. -/
structure MapClaims where
  username : Option ClaimVal
  role : Option ClaimVal
  exp : Option Int
deriving DecidableEq

/-- The key returned by a keyfunc.  golang-jwt inspects its dynamic type:
HMAC verification requires `[]byte`, RSA requires `*rsa.PublicKey`, the
"none" method requires the unsafe magic constant. -/
inductive VerifyKey where
  | hmacKey (secret : List Nat)
  | rsaPub (n : Nat)
  | unsafeNoneKey
deriving DecidableEq

/-- The signing input of a token: the encoded `header.payload` prefix, an
injective function of the declared algorithm and the claim set. -/
structure SigningInput where
  alg : Alg
  claims : MapClaims
deriving DecidableEq

/-- The signature segment of a token, as the mathematical value it encodes.
`hmacSig a k m` is the idealized MAC of message `m` under key `k` with
hash family member `a`; `rsaSig` an RSA signature under some private key;
`emptySig` the empty signature of alg "none"; `garbageSig` any other byte
string. -/
inductive Sig where
  | hmacSig (alg : Alg) (secret : List Nat) (msg : SigningInput)
  | rsaSig (skey : Nat) (msg : SigningInput)
  | emptySig
  | garbageSig (n : Nat)
deriving DecidableEq

/-- A structurally well-formed JWT: declared algorithm, claim set,
signature. -/
structure Token where
  alg : Alg
  claims : MapClaims
  sig : Sig
deriving DecidableEq

/-- The signing input covered by a token's signature. -/
def Token.signingInput (t : Token) : SigningInput := ⟨t.alg, t.claims⟩

/-- A token string: either the (injective) compact encoding of a
well-formed token, or a string that fails the three-part base64/JSON
decode of `ParseUnverified`. -/
inductive TokenStr where
  | wf (t : Token)
  | malformed (s : String)
deriving DecidableEq

/-- Inner failure of a signing method's `Verify`. -/
inductive VerifyFail where
  | invalidKeyType
  | noneDisallowed
  | mismatch
deriving DecidableEq

/-- The error classes `jwt.Parse` can return, mirroring golang-jwt/v5:
`tokenMalformed` = ErrTokenMalformed; `tokenUnverifiable` =
ErrTokenUnverifiable (unavailable alg, or keyfunc error carrying the
keyfunc's message); `signatureInvalid` = ErrTokenSignatureInvalid wrapping
the method's failure; `tokenExpired` = ErrTokenInvalidClaims wrapping
ErrTokenExpired. -/
inductive JwtError where
  | tokenMalformed
  | algUnavailable (s : String)
  | keyfuncError (msg : String)
  | signatureInvalid (detail : VerifyFail)
  | tokenExpired
deriving DecidableEq

/-- `Method.Verify(signingString, sig, key)` for each registered method:
HMAC methods demand a `[]byte` key and an exact MAC recomputation; RSA and
ECDSA methods demand an asymmetric public key (with any other key they
fail on the key-type check before touching the signature); the "none"
method demands the explicit unsafe opt-in constant. -/
def methodVerify (alg : Alg) (input : SigningInput) (sig : Sig)
    (key : VerifyKey) : Option VerifyFail :=
  match alg with
  | .HS256 | .HS384 | .HS512 =>
    match key with
    | .hmacKey s => if sig = .hmacSig alg s input then none else some .mismatch
    | _ => some .invalidKeyType
  | .RS256 =>
    match key with
    | .rsaPub k => if sig = .rsaSig k input then none else some .mismatch
    | _ => some .invalidKeyType
  | .ES256 =>
    match key with
    | _ => some .invalidKeyType
  | .noneAlg =>
    match key with
    | .unsafeNoneKey => if sig = .emptySig then none else some .mismatch
    | _ => some .noneDisallowed
  | .unknownAlg _ => some .invalidKeyType

/-- The claims validation step of v5's `parser.Parse`: with `jwt.MapClaims`
and default options only the registered time claims are checked, and the
tokens of this repository carry at most `exp`.  A present `exp` must be
strictly after `now` (`verifyExpiresAt` uses `now.Before(exp)`); an absent
`exp` is accepted (not required by default). -/
def validateClaims (now : Int) (c : MapClaims) : Option JwtError :=
  match c.exp with
  | some e => if now < e then none else some .tokenExpired
  | none => none

/-- `jwt.Parse(tokenStr, keyfunc)` followed by the `err != nil || !token.Valid`
check of both ValidateToken implementations, collapsed to one function:
decode (malformed strings rejected), look up the declared method
(unregistered algs rejected), run the caller's keyfunc on the parsed
token, verify the signature with the returned key, then validate claims.
Returns the `jwt.MapClaims` exactly when v5 would set `token.Valid`. -/
def parseJwt (keyfunc : Token → Except String VerifyKey) (now : Int)
    (ts : TokenStr) : Except JwtError MapClaims :=
  match ts with
  | .malformed _ => .error .tokenMalformed
  | .wf t =>
    match t.alg with
    | .unknownAlg s => .error (.algUnavailable s)
    | _ =>
      match keyfunc t with
      | .error m => .error (.keyfuncError m)
      | .ok key =>
        match methodVerify t.alg t.signingInput t.sig key with
        | some f => .error (.signatureInvalid f)
        | none =>
          match validateClaims now t.claims with
          | some e => .error e
          | none => .ok t.claims

end jwtv5

namespace infrastructure

open jwtv5

/-- `jwtService.GenerateToken` (task_manager_clean/infrastructure/
jwt_service.go, identical in task_manager_test): claims
{username, role, exp = now + 24h}, signed HS256 with the service secret.
`now` is the issuance instant in Unix seconds; 24h = 86400 s. -/
def GenerateToken (secret : List Nat) (now : Int) (username role : String) :
    TokenStr :=
  let claims : MapClaims :=
    { username := some (.str username)
      role := some (.str role)
      exp := some (now + 86400) }
  .wf { alg := .HS256, claims := claims,
        sig := .hmacSig .HS256 secret ⟨.HS256, claims⟩ }

/-- The keyfunc of the clean variant's ValidateToken: unconditionally
returns the service secret as an HMAC (`[]byte`) key. -/
def cleanKeyfunc (secret : List Nat) : Token → Except String VerifyKey :=
  fun _ => .ok (.hmacKey secret)

/-- `jwtService.ValidateToken` (task_manager_clean/infrastructure/
jwt_service.go): `jwt.Parse` with a keyfunc that always returns the
secret, then `err != nil || !token.Valid` and the MapClaims assertion
(which never fails for `jwt.Parse`). -/
def ValidateToken (secret : List Nat) (now : Int) (ts : TokenStr) :
    Except JwtError MapClaims :=
  parseJwt (cleanKeyfunc secret) now ts

end infrastructure

namespace service

open jwtv5

/-- The keyfunc of the task_manager_test variant: rejects any method that
is not of the `*jwt.SigningMethodHMAC` family with
"unexpected signing method", otherwise returns the service secret. -/
def testKeyfunc (secret : List Nat) : Token → Except String VerifyKey :=
  fun t =>
    if t.alg.isHMAC then .ok (.hmacKey secret)
    else .error "unexpected signing method"

/-- `jwtService.ValidateToken` (task_manager_test/internal/service/
jwt_service.go): `jwt.Parse` with the HMAC-family-checking keyfunc,
then the `err`, `token.Valid` and MapClaims checks. -/
def ValidateToken (secret : List Nat) (now : Int) (ts : TokenStr) :
    Except JwtError MapClaims :=
  parseJwt (testKeyfunc secret) now ts

end service

namespace infrastructure

open jwtv5

/-- A value stored in the Gin request context by `c.Set` (dynamically
typed, like the claim values it is copied from). -/
abbrev CtxVal := ClaimVal

/-- The per-request Gin context keys this middleware chain reads/writes.
`none` models "key never set" (`c.Get` returns `exists == false`). -/
structure GinCtx where
  username : Option CtxVal
  role : Option CtxVal
deriving DecidableEq

/-- Outcome of a middleware on one request: either the request proceeds to
the downstream handler (`c.Next()`) carrying the context, or the
middleware wrote the given HTTP status and called `c.Abort()` so the
downstream handler never runs. -/
inductive MwOutcome where
  | proceed (ctx : GinCtx)
  | abort (status : Nat)
deriving DecidableEq

/-- The `Authorization` header of an inbound request, split along the
check the middleware performs.  `c.GetHeader` returns `""` when the
header is absent; `missing` covers that, `other s` covers every present
header string that does not start with "Bearer ", and `bearer ts` the
strings "Bearer " ++ encoding of `ts` (the split is a bijection on
header strings). -/
inductive AuthHeader where
  | missing
  | other (s : String)
  | bearer (ts : TokenStr)
deriving DecidableEq

/-- The guarded context write of AuthMiddleware: `if v, ok := x.(string); ok
{ c.Set(key, v) }` — the key is set exactly when the claim value is a
string. -/
def setIfStr : Option ClaimVal → Option CtxVal
  | some (.str s) => some (.str s)
  | _ => none

/-- `AuthMiddleware` (task_manager_clean/infrastructure/auth_middleware.go):
401 + abort unless the header carries the bearer scheme; 401 + abort when
`ValidateToken` fails; on success, `c.Set` of "username" and "role" — each
only when the corresponding claim type-asserts to a Go string — then
`c.Next()`. -/
def AuthMiddleware (secret : List Nat) (now : Int) (h : AuthHeader) :
    MwOutcome :=
  match h with
  | .missing => .abort 401
  | .other _ => .abort 401
  | .bearer ts =>
    match ValidateToken secret now ts with
    | .error _ => .abort 401
    | .ok claims =>
      .proceed { username := setIfStr claims.username
                 role := setIfStr claims.role }

/-- `AdminOnly` (task_manager_clean/infrastructure/auth_middleware.go):
`roleIfc, exists := c.Get("role")`; `role, _ := roleIfc.(string)` (the
comma-ok assertion yields `""` for a missing or non-string value); 403 +
abort when `!exists || role != "admin"`, else `c.Next()`. -/
def AdminOnly (ctx : GinCtx) : MwOutcome :=
  let roleExists : Bool := ctx.role.isSome
  let role : String :=
    match ctx.role with
    | some (.str s) => s
    | _ => ""
  if !roleExists || role ≠ "admin" then .abort 403
  else .proceed ctx

end infrastructure

namespace bcrypt

/-- A decoded bcrypt credential: cost and salt (self-describing metadata
embedded in the `$2a$...` encoding) and the key-derivation output.  The
KDF is idealized as an injective record of its inputs; real bcrypt only
feeds the first 72 password bytes into the blowfish key schedule, so the
model truncates likewise. -/
structure BcryptHash where
  cost : Nat
  salt : List Nat
  key : List Nat × List Nat × Nat
deriving DecidableEq

/-- The idealized bcrypt KDF over (password, salt, cost). -/
def bcryptKdf (password salt : List Nat) (cost : Nat) :
    List Nat × List Nat × Nat :=
  (password.take 72, salt, cost)

/-- A credential string as stored/passed around by the Go code: either a
valid bcrypt encoding or any other string (`""` included), for which
decoding fails. -/
inductive StoredCred where
  | bc (h : BcryptHash)
  | foreign (s : String)
deriving DecidableEq

/-- Errors of `GenerateFromPassword` (golang.org/x/crypto/bcrypt):
`ErrPasswordTooLong` ("password length exceeds 72 bytes", returned
since x/crypto v0.1.0 before any hashing) and `InvalidCostError`. -/
inductive BcErr where
  | passwordTooLong
  | invalidCost (c : Nat)
deriving DecidableEq

/-- bcrypt.MinCost, bcrypt.MaxCost, bcrypt.DefaultCost. -/
def MinCost : Nat := 4
def MaxCost : Nat := 31
def DefaultCost : Nat := 10

/-- `bcrypt.GenerateFromPassword(password, cost)`: rejects passwords over
72 bytes; a cost below MinCost is replaced by DefaultCost; a cost above
MaxCost is an error; otherwise derives the key from (password, random
salt, cost) and encodes.  The salt (the entropy input) is an explicit
parameter of the model. -/
def GenerateFromPassword (password : List Nat) (cost : Nat)
    (salt : List Nat) : Except BcErr BcryptHash :=
  if password.length > 72 then .error .passwordTooLong
  else
    let cost := if cost < MinCost then DefaultCost else cost
    if cost > MaxCost then .error (.invalidCost cost)
    else .ok { cost := cost, salt := salt,
               key := bcryptKdf password salt cost }

/-- Errors of `bcrypt.CompareHashAndPassword`: a credential that does not
decode as a bcrypt hash, or a recomputed key differing from the stored
one (`ErrMismatchedHashAndPassword`). -/
inductive CmpErr where
  | malformedHash
  | mismatched
deriving DecidableEq

/-- `bcrypt.CompareHashAndPassword(hashed, password)`: decode the
credential (failure for any non-bcrypt string), re-derive the key with
the embedded salt and cost, constant-time compare. -/
def CompareHashAndPassword (hashed : StoredCred) (password : List Nat) :
    Except CmpErr Unit :=
  match hashed with
  | .foreign _ => .error .malformedHash
  | .bc h =>
    if h.key = bcryptKdf password h.salt h.cost then .ok ()
    else .error .mismatched

end bcrypt

namespace infrastructure

/-- `bcryptHasher.Hash` (task_manager_clean/infrastructure/
password_service.go, identical in task_manager_test):
`b, err := bcrypt.GenerateFromPassword([]byte(password), bcrypt.DefaultCost);
return string(b), err`.  The Go pair (credential string, error) is
returned as (credential, ok?): on error the returned string is `""`
(`string(nil)`), modelled as `.foreign ""`. -/
def Hash (salt : List Nat) (password : List Nat) :
    bcrypt.StoredCred × Option bcrypt.BcErr :=
  match bcrypt.GenerateFromPassword password bcrypt.DefaultCost salt with
  | .ok h => (.bc h, none)
  | .error e => (.foreign "", some e)

/-- `bcryptHasher.Compare` (same files):
`err := bcrypt.CompareHashAndPassword([]byte(hashed), []byte(plain));
return err == nil`. -/
def Compare (hashed : bcrypt.StoredCred) (plain : List Nat) : Bool :=
  match bcrypt.CompareHashAndPassword hashed plain with
  | .ok _ => true
  | .error _ => false

end infrastructure

namespace delivery

/-- The process environment as seen through `os.Getenv`, restricted to the
variables `main` reads.  `os.Getenv` returns `""` both for an unset and
for an empty variable, so a field value `""` covers both. -/
structure Env where
  mongodbUri : String
  jwtSecret : String
deriving DecidableEq

/-- Outcome of process startup: `log.Fatal` with a message (the process
exits before binding the listener), or the process reaches
`router.Run(":8080")` holding the given JWT secret.  Failures after the
environment checks (Mongo connect, listener bind) are likewise fatal but
depend on external collaborators, so `serves` marks only that startup
passed every environment check and proceeds to serve. -/
inductive MainOutcome where
  | fatal (msg : String)
  | serves (jwtSecret : String)
deriving DecidableEq

/-- The environment-validation half of `main`
(task_manager_clean/delivery/main.go): MONGODB_URI then JWT_SECRET are
read with `os.Getenv`; an empty value is `log.Fatal` (fail fast, nothing
is served).  On success the secret is passed to
`infrastructure.NewJWTService([]byte(jwtSecret))`. -/
def mainStartup (env : Env) : MainOutcome :=
  if env.mongodbUri = "" then .fatal "MONGODB_URI environment variable not set"
  else if env.jwtSecret = "" then .fatal "JWT_SECRET not set"
  else .serves env.jwtSecret

end delivery

namespace middleware

/-- `JwtKey` (task_manager_auth/middleware/auth_middleware.go): lazily
reads JWT_SECRET once; panics ("JWT_SECRET environment variable not set")
when it is unset or empty, otherwise yields the secret bytes.  The panic
is modelled as the error branch. -/
def JwtKey (env : delivery.Env) : Except String String :=
  if env.jwtSecret = "" then .error "JWT_SECRET environment variable not set"
  else .ok env.jwtSecret

end middleware

namespace authmain

/-- Outcome of the task_manager_auth process startup: `log.Fatal` before
serving, or the router running.  Unlike the clean variant's outcome, no
secret is carried: this `main` never reads JWT_SECRET. -/
inductive AuthMainOutcome where
  | fatal (msg : String)
  | serving
deriving DecidableEq

/-- The environment-validation half of the task_manager_auth `main`
(task_manager_auth/main.go): only MONGODB_URI is read and checked
(`log.Fatal` when empty); JWT_SECRET is never read at startup — the only
check of it sits in `middleware.JwtKey`, whose first call happens inside
the Login handler (`token.SignedString(middleware.JwtKey())`), after the
server is already serving, and whose panic is recovered by the Gin
Recovery middleware installed by `gin.Default()`.  Mongo connection
failures are likewise fatal but depend on an external collaborator, so
`serving` marks that startup passed every environment check and
`r.Run(":8080")` is reached. -/
def authMainStartup (env : delivery.Env) : AuthMainOutcome :=
  if env.mongodbUri = "" then .fatal "MONGODB_URI environment variable not set"
  else .serving

end authmain

namespace usecases

/-- `domain.User` at registration time: the inbound record with the
plaintext password bytes (ID is assigned by the repository). -/
structure User where
  username : String
  password : List Nat
  role : String
deriving DecidableEq

/-- A user document as persisted by `mongoUserRepo.Create`: username, the
bcrypt credential string, role. -/
structure UserRecord where
  username : String
  cred : bcrypt.StoredCred
  role : String
deriving DecidableEq

/-- Errors `userUsecase.Register` can return: a propagated hashing error,
or the duplicate-key error of `mongoUserRepo.Create` ("username already
exists", assuming the unique index on username). -/
inductive RegErr where
  | hashFailed (e : bcrypt.BcErr)
  | duplicateUsername
deriving DecidableEq

/-- `userUsecase.Register` (task_manager_clean/usecases/task_usecases.go,
identical in task_manager_test/internal/usecase/user_usecase.go): hash
the password (propagating a hashing error), replace the password field
with the credential, default an empty role to "user", then
`repo.Create`.  The repository is modelled as the list of stored user
documents; `Create` appends unless the username already exists. -/
def Register (salt : List Nat) (repo : List UserRecord) (u : User) :
    Except RegErr (List UserRecord) :=
  match infrastructure.Hash salt u.password with
  | (_, some e) => .error (.hashFailed e)
  | (cred, none) =>
    let role := if u.role = "" then "user" else u.role
    if repo.any (fun r => r.username = u.username) then
      .error .duplicateUsername
    else
      .ok (repo ++ [{ username := u.username, cred := cred, role := role }])

end usecases



namespace jwtv5

/-- Helper: `validateClaims` accepts exactly the claim sets whose (optional)
expiry lies strictly after `now`. -/
lemma validateClaims_eq_none_iff (now : Int) (c : MapClaims) :
    validateClaims now c = none ↔ ∀ e, c.exp = some e → now < e := by
  cases h : c.exp with
  | none => simp [validateClaims, h]
  | some e => by_cases hlt : now < e <;> simp [validateClaims, h, hlt]

end jwtv5

open jwtv5 in
/-- Helper: acceptance characterization of the clean variant's
ValidateToken on a well-formed token — success exactly for an HMAC-family
algorithm, the HMAC of the signing input under the service secret, and an
unexpired claim set; the returned claims are the token's own. -/
lemma clean_wf_ok_iff (secret : List Nat) (now : Int) (t : Token)
    (c : MapClaims) :
    infrastructure.ValidateToken secret now (.wf t) = .ok c ↔
      t.alg.isHMAC = true ∧ t.sig = .hmacSig t.alg secret t.signingInput ∧
      validateClaims now t.claims = none ∧ c = t.claims := by
  obtain ⟨alg, claims, sig⟩ := t
  cases alg <;>
    simp only [infrastructure.ValidateToken, parseJwt,
      infrastructure.cleanKeyfunc, methodVerify, Token.signingInput,
      Alg.isHMAC] <;>
    try simp
  case HS256 =>
    by_cases hsig : sig = Sig.hmacSig .HS256 secret ⟨.HS256, claims⟩
    · cases hv : validateClaims now claims <;> simp [hsig, hv, eq_comm]
    · simp [hsig]
  case HS384 =>
    by_cases hsig : sig = Sig.hmacSig .HS384 secret ⟨.HS384, claims⟩
    · cases hv : validateClaims now claims <;> simp [hsig, hv, eq_comm]
    · simp [hsig]
  case HS512 =>
    by_cases hsig : sig = Sig.hmacSig .HS512 secret ⟨.HS512, claims⟩
    · cases hv : validateClaims now claims <;> simp [hsig, hv, eq_comm]
    · simp [hsig]

open jwtv5 in
/-- Helper: acceptance characterization of the task_manager_test variant —
identical acceptance condition (its keyfunc rejects non-HMAC methods that
the clean variant instead fails on the library's key-type check). -/
lemma test_wf_ok_iff (secret : List Nat) (now : Int) (t : Token)
    (c : MapClaims) :
    service.ValidateToken secret now (.wf t) = .ok c ↔
      t.alg.isHMAC = true ∧ t.sig = .hmacSig t.alg secret t.signingInput ∧
      validateClaims now t.claims = none ∧ c = t.claims := by
  obtain ⟨alg, claims, sig⟩ := t
  cases alg <;>
    simp only [service.ValidateToken, parseJwt, service.testKeyfunc,
      methodVerify, Token.signingInput, Alg.isHMAC] <;>
    try simp
  case HS256 =>
    by_cases hsig : sig = Sig.hmacSig .HS256 secret ⟨.HS256, claims⟩
    · cases hv : validateClaims now claims <;> simp [hsig, hv, eq_comm]
    · simp [hsig]
  case HS384 =>
    by_cases hsig : sig = Sig.hmacSig .HS384 secret ⟨.HS384, claims⟩
    · cases hv : validateClaims now claims <;> simp [hsig, hv, eq_comm]
    · simp [hsig]
  case HS512 =>
    by_cases hsig : sig = Sig.hmacSig .HS512 secret ⟨.HS512, claims⟩
    · cases hv : validateClaims now claims <;> simp [hsig, hv, eq_comm]
    · simp [hsig]

open jwtv5 in
/-- C1: every well-formed token whose header declares an algorithm outside
the expected symmetric HMAC family is rejected by both ValidateToken
implementations whatever its payload; both keyfuncs are constant (they can
only ever hand the library the fixed service secret as the verification
key, never anything derived from the token); and any accepted token was
necessarily verified as the fixed-secret HMAC of its own signing input
with an HMAC-family algorithm, so no token-chosen algorithm or key can
reach acceptance. -/
theorem C1_fixed_algorithm_and_key (secret : List Nat) (now : Int) (t : Token) :
    (t.alg.isHMAC = false →
      (∃ e, infrastructure.ValidateToken secret now (.wf t) = .error e) ∧
      (∃ e, service.ValidateToken secret now (.wf t) = .error e)) ∧
    (∀ k, infrastructure.cleanKeyfunc secret t = .ok k → k = .hmacKey secret) ∧
    (∀ k, service.testKeyfunc secret t = .ok k → k = .hmacKey secret) ∧
    (∀ c, infrastructure.ValidateToken secret now (.wf t) = .ok c →
      t.alg.isHMAC = true ∧ t.sig = .hmacSig t.alg secret t.signingInput) ∧
    (∀ c, service.ValidateToken secret now (.wf t) = .ok c →
      t.alg.isHMAC = true ∧ t.sig = .hmacSig t.alg secret t.signingInput) := by
  refine ⟨?_, ?_, ?_, ?_, ?_⟩
  · intro hfam
    constructor
    · cases hres : infrastructure.ValidateToken secret now (.wf t) with
      | error e => exact ⟨e, rfl⟩
      | ok c =>
        have h := (clean_wf_ok_iff secret now t c).mp hres
        rw [hfam] at h
        exact absurd h.1 (by simp)
    · cases hres : service.ValidateToken secret now (.wf t) with
      | error e => exact ⟨e, rfl⟩
      | ok c =>
        have h := (test_wf_ok_iff secret now t c).mp hres
        rw [hfam] at h
        exact absurd h.1 (by simp)
  · intro k hk
    simpa [infrastructure.cleanKeyfunc] using hk.symm
  · intro k hk
    by_cases hfam : t.alg.isHMAC <;> simp_all [service.testKeyfunc]
  · intro c hres
    have h := (clean_wf_ok_iff secret now t c).mp hres
    exact ⟨h.1, h.2.1⟩
  · intro c hres
    have h := (test_wf_ok_iff secret now t c).mp hres
    exact ⟨h.1, h.2.1⟩

/-- Witness for C1: a token declaring RS256, RSA-signed, is rejected by
both implementations. -/
theorem C1_witness :
    (∃ e, infrastructure.ValidateToken [1] 0
      (.wf ⟨.RS256, ⟨some (.str "hacker"), some (.str "user"), none⟩,
        .rsaSig 7 ⟨.RS256, ⟨some (.str "hacker"), some (.str "user"), none⟩⟩⟩) =
        .error e) ∧
    (∃ e, service.ValidateToken [1] 0
      (.wf ⟨.RS256, ⟨some (.str "hacker"), some (.str "user"), none⟩,
        .rsaSig 7 ⟨.RS256, ⟨some (.str "hacker"), some (.str "user"), none⟩⟩⟩) =
        .error e) :=
  (C1_fixed_algorithm_and_key [1] 0
    ⟨.RS256, ⟨some (.str "hacker"), some (.str "user"), none⟩,
      .rsaSig 7 ⟨.RS256, ⟨some (.str "hacker"), some (.str "user"), none⟩⟩⟩).1 rfl

open jwtv5 in
/-- C2: a token whose expiry claim is at or before the current time is
rejected as expired by both ValidateToken implementations even though its
signature is the genuine HMAC of its contents under the correct process
secret (the claims are not returned). -/
theorem C2_expired_rejected (secret : List Nat) (now : Int) (alg : Alg)
    (claims : MapClaims) (e : Int) (halg : alg.isHMAC = true)
    (hexp : claims.exp = some e) (hle : e ≤ now) :
    infrastructure.ValidateToken secret now
      (.wf ⟨alg, claims, .hmacSig alg secret ⟨alg, claims⟩⟩) =
        .error .tokenExpired ∧
    service.ValidateToken secret now
      (.wf ⟨alg, claims, .hmacSig alg secret ⟨alg, claims⟩⟩) =
        .error .tokenExpired := by
  have hnlt : ¬ now < e := not_lt.mpr hle
  have hv : validateClaims now claims = some .tokenExpired := by
    simp [validateClaims, hexp, hnlt]
  cases alg <;> simp_all [infrastructure.ValidateToken, service.ValidateToken,
    parseJwt, infrastructure.cleanKeyfunc, service.testKeyfunc, methodVerify,
    Alg.isHMAC, Token.signingInput]

/-- Witness for C2: a correctly signed token whose expiry equals the
current instant is rejected as expired. -/
theorem C2_witness :
    infrastructure.ValidateToken [1] 200
      (.wf ⟨.HS256, ⟨some (.str "u"), some (.str "r"), some 200⟩,
        .hmacSig .HS256 [1] ⟨.HS256, ⟨some (.str "u"), some (.str "r"), some 200⟩⟩⟩) =
      .error .tokenExpired :=
  (C2_expired_rejected [1] 200 .HS256 ⟨some (.str "u"), some (.str "r"), some 200⟩
    200 rfl rfl (by decide)).1

open jwtv5 in
/-- C3: a token whose signature was produced with any secret different
from the process secret is rejected with the bad-signature error
(ErrTokenSignatureInvalid wrapping the HMAC mismatch) by both
ValidateToken implementations, and no claims are returned. -/
theorem C3_wrong_secret_rejected (secret secret2 : List Nat) (now : Int)
    (alg : Alg) (claims : MapClaims) (hne : secret2 ≠ secret)
    (halg : alg.isHMAC = true) :
    infrastructure.ValidateToken secret now
      (.wf ⟨alg, claims, .hmacSig alg secret2 ⟨alg, claims⟩⟩) =
        .error (.signatureInvalid .mismatch) ∧
    service.ValidateToken secret now
      (.wf ⟨alg, claims, .hmacSig alg secret2 ⟨alg, claims⟩⟩) =
        .error (.signatureInvalid .mismatch) := by
  cases alg <;> simp_all [infrastructure.ValidateToken, service.ValidateToken,
    parseJwt, infrastructure.cleanKeyfunc, service.testKeyfunc, methodVerify,
    Alg.isHMAC, Token.signingInput]

/-- Witness for C3: a token HMAC-signed under secret [2] is rejected by the
service holding secret [1] with the signature-mismatch error. -/
theorem C3_witness :
    infrastructure.ValidateToken [1] 0
      (.wf ⟨.HS256, ⟨some (.str "u"), some (.str "r"), some 10⟩,
        .hmacSig .HS256 [2] ⟨.HS256, ⟨some (.str "u"), some (.str "r"), some 10⟩⟩⟩) =
      .error (.signatureInvalid .mismatch) :=
  (C3_wrong_secret_rejected [1] [2] 0 .HS256
    ⟨some (.str "u"), some (.str "r"), some 10⟩ (by decide) rfl).1

open jwtv5 in
/-- C4: verifying a token right after issuing it with the same secret, at
any instant before the 24-hour expiry, succeeds in both implementations
and returns the very subject (username claim) and role it was issued
for. -/
theorem C4_roundtrip (secret : List Nat) (now now2 : Int) (u r : String)
    (h : now2 < now + 86400) :
    infrastructure.ValidateToken secret now2
      (infrastructure.GenerateToken secret now u r) =
      .ok ⟨some (.str u), some (.str r), some (now + 86400)⟩ ∧
    service.ValidateToken secret now2
      (infrastructure.GenerateToken secret now u r) =
      .ok ⟨some (.str u), some (.str r), some (now + 86400)⟩ := by
  constructor <;>
    simp [infrastructure.ValidateToken, service.ValidateToken,
      infrastructure.GenerateToken, parseJwt, infrastructure.cleanKeyfunc,
      service.testKeyfunc, methodVerify, Token.signingInput, validateClaims,
      Alg.isHMAC, h]

/-- Witness for C4: issue at instant 100 and verify at instant 100 for
(alice, admin). -/
theorem C4_witness :
    infrastructure.ValidateToken [1, 2] 100
      (infrastructure.GenerateToken [1, 2] 100 "alice" "admin") =
      .ok ⟨some (.str "alice"), some (.str "admin"), some 86500⟩ :=
  (C4_roundtrip [1, 2] 100 100 "alice" "admin" (by decide)).1

open jwtv5 in
/-- Counterexample for C5: a token correctly HMAC-signed with the process
secret whose username claim is the number 7 verifies successfully, yet
AuthMiddleware admits the request with NO username written into the
context (the verified subject value is not placed there), so "admits and
writes the verified subject/role pair exactly when verify succeeds" fails
at this input. -/
theorem C5_counterexample :
    infrastructure.ValidateToken [1] 0
      (.wf ⟨.HS256, ⟨some (.num 7), some (.str "admin"), some 100⟩,
        .hmacSig .HS256 [1] ⟨.HS256, ⟨some (.num 7), some (.str "admin"), some 100⟩⟩⟩) =
      .ok ⟨some (.num 7), some (.str "admin"), some 100⟩ ∧
    infrastructure.AuthMiddleware [1] 0
      (.bearer (.wf ⟨.HS256, ⟨some (.num 7), some (.str "admin"), some 100⟩,
        .hmacSig .HS256 [1] ⟨.HS256, ⟨some (.num 7), some (.str "admin"), some 100⟩⟩⟩)) =
      .proceed ⟨none, some (.str "admin")⟩ := by
  decide

open jwtv5 in
/-- C5 (amended): AuthMiddleware admits the request to the downstream
handler exactly when ValidateToken succeeds on the extracted bearer
token; on success the username and role claims are written into the
request context precisely when they are string-valued (a non-string or
absent claim is skipped while the request still proceeds); in every
other case — missing header, header without the Bearer scheme, or any
verification error — it aborts with 401 and the downstream handler does
not run. -/
theorem C5_gate_characterization (secret : List Nat) (now : Int)
    (h : infrastructure.AuthHeader) :
    ((∃ ctx, infrastructure.AuthMiddleware secret now h = .proceed ctx) ↔
      (∃ ts c, h = .bearer ts ∧
        infrastructure.ValidateToken secret now ts = .ok c)) ∧
    (∀ ts c, h = .bearer ts →
      infrastructure.ValidateToken secret now ts = .ok c →
      infrastructure.AuthMiddleware secret now h =
        .proceed { username := infrastructure.setIfStr c.username,
                   role := infrastructure.setIfStr c.role }) ∧
    (h = .missing → infrastructure.AuthMiddleware secret now h = .abort 401) ∧
    (∀ s, h = .other s →
      infrastructure.AuthMiddleware secret now h = .abort 401) ∧
    (∀ ts e, h = .bearer ts →
      infrastructure.ValidateToken secret now ts = .error e →
      infrastructure.AuthMiddleware secret now h = .abort 401) := by
  cases h with
  | missing => simp [infrastructure.AuthMiddleware]
  | other s => simp [infrastructure.AuthMiddleware]
  | bearer ts =>
    cases hres : infrastructure.ValidateToken secret now ts with
    | error e =>
      simp only [infrastructure.AuthMiddleware, hres]
      refine ⟨by simp [hres], ?_, by simp, by simp, by simp⟩
      intro ts2 c hb hok
      injection hb with hb
      subst hb
      rw [hres] at hok
      exact absurd hok (by simp)
    | ok c =>
      simp only [infrastructure.AuthMiddleware, hres]
      refine ⟨by simp [hres], ?_, by simp, by simp, ?_⟩
      · intro ts2 c2 hb hok
        injection hb with hb
        subst hb
        rw [hres] at hok
        injection hok with hc
        rw [hc]
      · intro ts2 e hb herr
        injection hb with hb
        subst hb
        rw [hres] at herr
        exact absurd herr (by simp)

/-- Witness for C5: a freshly issued (alice, admin) token passes the gate
and both claims are written into the context. -/
theorem C5_witness :
    infrastructure.AuthMiddleware [1] 0
      (.bearer (infrastructure.GenerateToken [1] 0 "alice" "admin")) =
      .proceed ⟨some (.str "alice"), some (.str "admin")⟩ := by
  have h := (C5_gate_characterization [1] 0
    (.bearer (infrastructure.GenerateToken [1] 0 "alice" "admin"))).2.1
    (infrastructure.GenerateToken [1] 0 "alice" "admin")
    ⟨some (.str "alice"), some (.str "admin"), some 86400⟩ rfl (by decide)
  simpa [infrastructure.setIfStr] using h

open jwtv5 in
/-- C6: AdminOnly admits (passing the context through) exactly when the
context's role value exists, is a string, and equals "admin"; for an
absent role, any other string, or a non-string value it aborts with 403
(the comma-ok type assertion makes the non-string case total, never a
crash). -/
theorem C6_admin_gate (ctx : infrastructure.GinCtx) :
    (infrastructure.AdminOnly ctx = .proceed ctx ↔
      ctx.role = some (.str "admin")) ∧
    (ctx.role ≠ some (.str "admin") →
      infrastructure.AdminOnly ctx = .abort 403) := by
  obtain ⟨u, r⟩ := ctx
  match r with
  | none => simp [infrastructure.AdminOnly]
  | some (.str s) =>
    by_cases hs : s = "admin" <;> simp [infrastructure.AdminOnly, hs]
  | some (.num n) => simp [infrastructure.AdminOnly]
  | some (.boolVal b) => simp [infrastructure.AdminOnly]

/-- Witness for C6: a "user" role is rejected with 403 and an "admin" role
is admitted. -/
theorem C6_witness :
    infrastructure.AdminOnly ⟨some (.str "bob"), some (.str "user")⟩ =
      .abort 403 ∧
    infrastructure.AdminOnly ⟨none, some (.str "admin")⟩ =
      .proceed ⟨none, some (.str "admin")⟩ :=
  ⟨(C6_admin_gate ⟨some (.str "bob"), some (.str "user")⟩).2 (by decide),
   (C6_admin_gate ⟨none, some (.str "admin")⟩).1.mpr rfl⟩

/-- Helper: for passwords within bcrypt's 72-byte bound,
`GenerateFromPassword` at DefaultCost succeeds with cost 10 and the
derived key. -/
lemma generate_le72 (p salt : List Nat) (h : p.length ≤ 72) :
    bcrypt.GenerateFromPassword p bcrypt.DefaultCost salt =
      .ok ⟨10, salt, bcrypt.bcryptKdf p salt 10⟩ := by
  have hgt : ¬ p.length > 72 := not_lt.mpr h
  simp [bcrypt.GenerateFromPassword, bcrypt.DefaultCost, bcrypt.MinCost,
    bcrypt.MaxCost, hgt]

/-- C7 (amended): for every plaintext password of at most 72 bytes —
the empty string included — hashing and then verifying the same
plaintext against the produced credential returns true; the 72-byte
bound is forced by x/crypto bcrypt's ErrPasswordTooLong (see the
counterexample). -/
theorem C7_roundtrip_within_limit (salt p : List Nat) (hlen : p.length ≤ 72) :
    infrastructure.Compare (infrastructure.Hash salt p).1 p = true := by
  simp [infrastructure.Hash, generate_le72 p salt hlen, infrastructure.Compare,
    bcrypt.CompareHashAndPassword]

/-- Counterexample for C7: for a 73-byte password, Hash fails (the Go code
returns the empty credential string alongside the error) and Compare of
that credential against the same password returns false, refuting
"Compare(Hash(p), p) == true for every p". -/
theorem C7_counterexample :
    infrastructure.Compare (infrastructure.Hash [9] (List.replicate 73 97)).1
      (List.replicate 73 97) = false := by
  decide

/-- Witness for C7: the empty password round-trips. -/
theorem C7_witness :
    infrastructure.Compare (infrastructure.Hash [5] []).1 [] = true :=
  C7_roundtrip_within_limit [5] [] (by decide)

/-- C8 (amended): Hash succeeds — returning a bcrypt credential and no
error — exactly for inputs of at most 72 bytes (the empty string
included); longer inputs are rejected with ErrPasswordTooLong, an error
determined purely by input content, independent of any infrastructure
failure. -/
theorem C8_hash_errors_iff_too_long (salt p : List Nat) :
    ((infrastructure.Hash salt p).2 = none ↔ p.length ≤ 72) ∧
    (p.length ≤ 72 → ∃ h, (infrastructure.Hash salt p).1 = .bc h) ∧
    (p.length > 72 →
      (infrastructure.Hash salt p).2 = some .passwordTooLong) := by
  by_cases hlen : p.length ≤ 72
  · have hgt : ¬ p.length > 72 := not_lt.mpr hlen
    simp [infrastructure.Hash, generate_le72 p salt hlen, hlen, hgt]
  · have hgt : p.length > 72 := not_le.mp hlen
    simp [infrastructure.Hash, bcrypt.GenerateFromPassword, hgt, hlen]

/-- Counterexample for C8: a 73-byte input makes Hash return
ErrPasswordTooLong with no internal failure involved, refuting "Hash
never fails because of input content". -/
theorem C8_counterexample :
    (infrastructure.Hash [3] (List.replicate 73 98)).2 =
      some .passwordTooLong := by
  decide

/-- Witness for C8: the empty input hashes without error to a bcrypt
credential, and a 73-byte input is rejected. -/
theorem C8_witness :
    (infrastructure.Hash [3] []).2 = none ∧
    (∃ h, (infrastructure.Hash [3] []).1 = .bc h) ∧
    (infrastructure.Hash [3] (List.replicate 73 99)).2 =
      some .passwordTooLong :=
  ⟨(C8_hash_errors_iff_too_long [3] []).1.mpr (by decide),
   (C8_hash_errors_iff_too_long [3] []).2.1 (by decide),
   (C8_hash_errors_iff_too_long [3] (List.replicate 73 99)).2.2 (by decide)⟩

/-- Counterexample for C9: with MONGODB_URI set and JWT_SECRET empty, the
task_manager_auth process passes startup and starts serving requests —
the missing secret is only detected by `JwtKey`, lazily, on its first
call from the Login handler (an in-handler panic recovered by Gin, not a
startup failure) — refuting, for this cited source, that the process
"fails fast and never starts serving requests". -/
theorem C9_counterexample :
    authmain.authMainStartup ⟨"mongodb-uri", ""⟩ = .serving ∧
    middleware.JwtKey ⟨"mongodb-uri", ""⟩ =
      .error "JWT_SECRET environment variable not set" := by
  decide

/-- C9 (amended): the clean variant reads JWT_SECRET at startup and its
absence (unset or empty) is fatal before serving — that process never
serves without a non-empty secret; the task_manager_auth variant never
reads JWT_SECRET at startup: its startup outcome is invariant in the
secret and it serves whenever MONGODB_URI is set, deferring the check to
`JwtKey`, which fails on an empty secret only when first called, from
the Login handler, after serving has begun. -/
theorem C9_secret_fatal_only_in_clean (env : delivery.Env) :
    (env.jwtSecret = "" → ∃ m, delivery.mainStartup env = .fatal m) ∧
    (∀ s, delivery.mainStartup env = .serves s →
      s = env.jwtSecret ∧ s ≠ "") ∧
    (env.mongodbUri ≠ "" → authmain.authMainStartup env = .serving) ∧
    (∀ s, authmain.authMainStartup env =
      authmain.authMainStartup ⟨env.mongodbUri, s⟩) ∧
    (env.jwtSecret = "" → middleware.JwtKey env =
      .error "JWT_SECRET environment variable not set") := by
  obtain ⟨uri, sec⟩ := env
  refine ⟨?_, ?_, ?_, ?_, ?_⟩
  · rintro rfl
    by_cases hu : uri = "" <;> simp [delivery.mainStartup, hu]
  · intro s hs
    by_cases hu : uri = "" <;> by_cases hsec : sec = "" <;>
      simp_all [delivery.mainStartup]
  · intro hu
    simp [authmain.authMainStartup, hu]
  · intro s
    by_cases hu : uri = "" <;> simp [authmain.authMainStartup, hu]
  · rintro rfl
    simp [middleware.JwtKey]

/-- Witness for C9: at the same concrete environment (MONGODB_URI set,
JWT_SECRET empty) the clean main is fatal while the auth main serves. -/
theorem C9_witness :
    (∃ m, delivery.mainStartup ⟨"m", ""⟩ = .fatal m) ∧
    authmain.authMainStartup ⟨"m", ""⟩ = .serving := by
  have h := C9_secret_fatal_only_in_clean ⟨"m", ""⟩
  exact ⟨h.1 rfl, h.2.2.1 (by decide)⟩

/-- C10: a successful registration (password within the bcrypt bound,
username not taken) stores exactly one new user record whose role is
"user" when the request's role field was empty and the given role
unchanged otherwise. -/
theorem C10_default_role (salt : List Nat) (repo : List usecases.UserRecord)
    (u : usecases.User) (hlen : u.password.length ≤ 72)
    (hdup : repo.any (fun r => r.username = u.username) = false) :
    usecases.Register salt repo u =
      .ok (repo ++ [{ username := u.username,
                      cred := (infrastructure.Hash salt u.password).1,
                      role := if u.role = "" then "user" else u.role }]) := by
  simp [usecases.Register, infrastructure.Hash,
    generate_le72 u.password salt hlen, hdup]

/-- Witness for C10: registering with an empty role stores role "user";
registering with role "admin" stores "admin". -/
theorem C10_witness :
    usecases.Register [9] [] ⟨"bob", [112], ""⟩ =
      .ok [⟨"bob", .bc ⟨10, [9], ([112], [9], 10)⟩, "user"⟩] ∧
    usecases.Register [9] [] ⟨"eve", [113], "admin"⟩ =
      .ok [⟨"eve", .bc ⟨10, [9], ([113], [9], 10)⟩, "admin"⟩] := by
  have h1 := C10_default_role [9] [] ⟨"bob", [112], ""⟩ (by decide) (by decide)
  have h2 := C10_default_role [9] [] ⟨"eve", [113], "admin"⟩ (by decide) (by decide)
  constructor
  · simpa [infrastructure.Hash, bcrypt.GenerateFromPassword,
      bcrypt.bcryptKdf] using h1
  · simpa [infrastructure.Hash, bcrypt.GenerateFromPassword,
      bcrypt.bcryptKdf] using h2
